import Mathlib

/-!
# Verification of the todo mutation and search engine

Shallow embedding of the Go todo backend (`internal/service/todo.go`,
`internal/repository/todo.go`, `internal/model`): the todo mutation engine
(create / update / delete / reorder), the ownership-scoped entity store, the
category counter maintainer and the search-input validator, together with
proofs of the specified invariants.

The database is modelled as an in-memory state (`DB`); machine integers are
modelled as `Int` (no arithmetic here approaches overflow); Go `*T` fields
are `Option T`; fallible operations return `Except SvcError`.
-/

namespace TodoApp

/-! ## Date/Time policy (`pkg/util/time.go`) -/

/-- A calendar date as produced by `util.ParseDate` (format `YYYY-MM-DD`,
day granularity — the Go value is a `time.Time` at midnight UTC). -/
structure GoDate where
  year : Nat
  month : Nat
  day : Nat
deriving DecidableEq, Repr

/-- `time.Time.Before` on date-only values: lexicographic comparison.
`util.IsBeforeToday t = GoDate.isBefore t today` with `today` the injected
wall-clock date. -/
def GoDate.isBefore (a b : GoDate) : Bool :=
  (a.year < b.year) ||
  (a.year == b.year && a.month < b.month) ||
  (a.year == b.year && a.month == b.month && a.day < b.day)

def isLeapYear (y : Nat) : Bool :=
  (y % 4 == 0 && y % 100 != 0) || (y % 400 == 0)

def daysInMonth (y m : Nat) : Nat :=
  if m == 2 then (if isLeapYear y then 29 else 28)
  else if m == 4 || m == 6 || m == 9 || m == 11 then 30
  else 31

def isDigit (c : Char) : Bool := '0' ≤ c && c ≤ '9'

def digitVal (c : Char) : Nat := c.toNat - '0'.toNat

/-- `util.ParseDate`: parses `YYYY-MM-DD`; the empty string yields "no date"
(`.ok none`, not an error); a malformed string is an error (`time.Parse`
validates digits, separators, month range and day-of-month range). -/
def ParseDate (s : String) : Except Unit (Option GoDate) :=
  if s = "" then .ok none
  else
    match s.toList with
    | [y1, y2, y3, y4, '-', m1, m2, '-', d1, d2] =>
      if isDigit y1 && isDigit y2 && isDigit y3 && isDigit y4 &&
         isDigit m1 && isDigit m2 && isDigit d1 && isDigit d2 then
        let y := ((digitVal y1 * 10 + digitVal y2) * 10 + digitVal y3) * 10 + digitVal y4
        let m := digitVal m1 * 10 + digitVal m2
        let d := digitVal d1 * 10 + digitVal d2
        if 1 ≤ m && m ≤ 12 && 1 ≤ d && d ≤ daysInMonth y m then
          .ok (some ⟨y, m, d⟩)
        else .error ()
      else .error ()
    | _ => .error ()

/-! ## Data model (`internal/model/todo.go`) -/

/-- `model.Status`: `int` with StatusPending = 0, StatusInProgress = 1,
StatusCompleted = 2 (the Go service casts unchecked `int`s into it). -/
def statusPending : Int := 0
def statusInProgress : Int := 1
def statusCompleted : Int := 2

/-- `model.Priority`: `int` with PriorityLow = 0, PriorityMedium = 1,
PriorityHigh = 2. -/
def priorityLow : Int := 0
def priorityMedium : Int := 1
def priorityHigh : Int := 2

/-- `model.Todo` (persistent fields; relations are recomputed from the DB). -/
structure Todo where
  id : Int
  userId : Int
  categoryId : Option Int := none
  title : String := ""
  description : Option String := none
  completed : Bool := false
  position : Option Int := none
  priority : Int := priorityMedium
  status : Int := statusPending
  dueDate : Option GoDate := none
deriving DecidableEq, Repr

/-- `model.Category` (fields relevant to the core: identity, owner and the
denormalized `todos_count`). -/
structure Category where
  id : Int
  userId : Int
  todosCount : Int := 0
deriving DecidableEq, Repr

/-- The backing store: todo rows, category rows and the todo id sequence. -/
structure DB where
  todos : List Todo := []
  categories : List Category := []
  nextTodoId : Int := 1
deriving DecidableEq, Repr

/-- Storage well-formedness: todo ids are pairwise distinct (primary key)
and below the id sequence counter. -/
def DB.WF (db : DB) : Prop :=
  db.todos.Pairwise (fun a b => a.id ≠ b.id) ∧
  ∀ t ∈ db.todos, t.id < db.nextTodoId

instance (db : DB) : Decidable db.WF := by
  unfold DB.WF; infer_instance

/-! ## Todo entity store (`internal/repository/todo.go`) -/

/-- `TodoRepository.FindByID`: first row with `id = ? AND user_id = ?`;
`none` stands for `gorm.ErrRecordNotFound`. -/
def findByID (id userId : Int) (db : DB) : Option Todo :=
  db.todos.find? (fun t => t.id == id && t.userId == userId)

/-- The `COALESCE(MAX(position), 0)` aggregate of `Todo.BeforeCreate`
over the owner's rows: SQL `MAX` ignores NULL positions and is NULL on an
empty set, which `COALESCE` turns into 0. -/
def maxPositionOf (userId : Int) (todos : List Todo) : Int :=
  match (todos.filter (fun t => t.userId == userId)).filterMap (fun t => t.position) with
  | [] => 0
  | p :: ps => ps.foldl max p

/-- `model.Todo.BeforeCreate`: assign `position := max + 1` when unset. -/
def beforeCreate (t : Todo) (db : DB) : Todo :=
  match t.position with
  | none => { t with position := some (maxPositionOf t.userId db.todos + 1) }
  | some _ => t

/-- `TodoRepository.Create`: runs the `BeforeCreate` hook, assigns the next
id, inserts the row. -/
def repoCreate (t : Todo) (db : DB) : Todo × DB :=
  let t1 := beforeCreate t db
  let t2 := { t1 with id := db.nextTodoId }
  (t2, { db with todos := db.todos ++ [t2], nextTodoId := db.nextTodoId + 1 })

/-- `TodoRepository.Update` (GORM `Save`): replace the row with the same
primary key. -/
def repoUpdate (t : Todo) (db : DB) : DB :=
  { db with todos := db.todos.map (fun u => if u.id == t.id then t else u) }

/-- `TodoRepository.Delete`: delete rows with `id = ? AND user_id = ?`;
`RowsAffected == 0` is reported as record-not-found. -/
def repoDelete (id userId : Int) (db : DB) : Except Unit DB :=
  if db.todos.any (fun t => t.id == id && t.userId == userId) then
    .ok { db with todos := db.todos.filter (fun t => !(t.id == id && t.userId == userId)) }
  else .error ()

/-- `TodoRepository.ValidateCategoryOwnership`: a category row with this id
exists and belongs to the user. -/
def repoValidateCategoryOwnership (categoryId userId : Int) (db : DB) : Bool :=
  db.categories.any (fun c => c.id == categoryId && c.userId == userId)

/-- `repository.OrderUpdate`. -/
structure OrderUpdate where
  id : Int
  position : Int
deriving DecidableEq, Repr

/-- One iteration of `TodoRepository.UpdateOrder`: `UPDATE position WHERE
id = ? AND user_id = ?` — a missing row updates nothing and is not an
error. -/
def applyOrderUpdate (userId : Int) (u : OrderUpdate) (todos : List Todo) : List Todo :=
  todos.map (fun t =>
    if t.id == u.id && t.userId == userId then { t with position := some u.position } else t)

/-- `TodoRepository.UpdateOrder`: applies every position update inside one
transaction; ids not found under the owner are skipped, never an error. -/
def updateOrder (userId : Int) (updates : List OrderUpdate) (db : DB) : Except Unit DB :=
  .ok { db with todos := updates.foldl (fun ts u => applyOrderUpdate userId u ts) db.todos }

/-! ## Category counter maintainer

`CategoryRepository.IncrementTodosCount` / `DecrementTodosCount`.
Modelled from the spec: the concrete `CategoryRepository` is not among the
given sources (only its interface `repository.CategoryRepositoryInterface`
and the spec §4.4) — an atomic single-row counter adjustment that may fail;
the `ok` flag stands for whether the underlying store call succeeded, so
that best-effort behaviour of the callers is provable for every outcome. -/

/-- `CategoryRepository.IncrementTodosCount` (spec §4.4): `todos_count + 1`
on the matching row; on store failure (`ok = false`) nothing changes. -/
def incTodosCount (ok : Bool) (categoryId : Int) (cats : List Category) : List Category :=
  if ok then
    cats.map (fun c => if c.id == categoryId then { c with todosCount := c.todosCount + 1 } else c)
  else cats

/-- `CategoryRepository.DecrementTodosCount` (spec §4.4): `todos_count - 1`
on the matching row; on store failure nothing changes. -/
def decTodosCount (ok : Bool) (categoryId : Int) (cats : List Category) : List Category :=
  if ok then
    cats.map (fun c => if c.id == categoryId then { c with todosCount := c.todosCount - 1 } else c)
  else cats

/-- Outcome oracle for the best-effort counter calls: which increments and
decrements succeed at the store. The Go service discards these errors
(`_ = s.categoryRepo.IncrementTodosCount(...)`). -/
structure CounterOracle where
  incOk : Int → Bool
  decOk : Int → Bool

/-- The all-successful oracle (a healthy store). -/
def oracleOk : CounterOracle := ⟨fun _ => true, fun _ => true⟩

/-- The todos-count of the (first) category row with the given id. -/
def todosCountOf (categoryId : Int) (db : DB) : Option Int :=
  (db.categories.find? (fun c => c.id == categoryId)).map (fun c => c.todosCount)

/-! ## Service errors (`internal/errors`)

Every `errors.ValidationFailed` call site in the core passes a single
field with a single message, so the error payload is modelled as that
pair. `notFound` stands for `gorm.ErrRecordNotFound`, which the handler
maps to the NotFound error. -/

inductive SvcError where
  | validationFailed (field : String) (msg : String)
  | notFound
deriving DecidableEq, Repr

/-! ## Todo mutation engine (`internal/service/todo.go`) -/

/-- `service.CreateInput`. -/
structure CreateInput where
  userId : Int
  title : String := ""
  description : Option String := none
  categoryId : Option Int := none
  priority : Option Int := none
  status : Option Int := none
  dueDate : Option String := none
  position : Option Int := none
deriving Repr

/-- `service.UpdateInput`. -/
structure UpdateInput where
  title : Option String := none
  description : Option String := none
  categoryId : Option Int := none
  completed : Option Bool := none
  priority : Option Int := none
  status : Option Int := none
  dueDate : Option String := none
  position : Option Int := none
deriving Repr

/-- `TodoService.resolvePriority`: supplied value or default medium. -/
def resolvePriority (p : Option Int) : Int :=
  match p with
  | some v => v
  | none => priorityMedium

/-- `TodoService.resolveStatus`: supplied value or default pending. -/
def resolveStatus (st : Option Int) : Int :=
  match st with
  | some v => v
  | none => statusPending

/-- `TodoService.validateCategoryOwnership`. -/
def validateCategoryOwnership (categoryId userId : Int) (db : DB) : Except SvcError Unit :=
  if repoValidateCategoryOwnership categoryId userId db then .ok ()
  else .error (.validationFailed "category_id" "Category not found or not owned by user")

/-- `TodoService.parseDueDate`: nil or empty is "no date"; bad format and
(on create only) past dates are validation failures. -/
def parseDueDate (dateStr : Option String) (checkPast : Bool) (today : GoDate) :
    Except SvcError (Option GoDate) :=
  match dateStr with
  | none => .ok none
  | some s =>
    if s = "" then .ok none
    else
      match ParseDate s with
      | .error _ => .error (.validationFailed "due_date" "Invalid date format. Use YYYY-MM-DD")
      | .ok none => .ok none
      | .ok (some d) =>
        if checkPast && d.isBefore today then
          .error (.validationFailed "due_date" "Due date cannot be in the past")
        else .ok (some d)

/-- `TodoService.applyTextFields`. -/
def applyTextFields (todo : Todo) (input : UpdateInput) : Todo :=
  let todo :=
    match input.title with
    | some t => { todo with title := t }
    | none => todo
  match input.description with
  | some _ => { todo with description := input.description }
  | none => todo

/-- `TodoService.applyCategory`: nil leaves the reference untouched, the
sentinel 0 clears it, a non-zero id is ownership-validated then set. -/
def applyCategory (todo : Todo) (categoryId : Option Int) (userId : Int) (db : DB) :
    Except SvcError Todo :=
  match categoryId with
  | none => .ok todo
  | some cid =>
    if cid = 0 then .ok { todo with categoryId := none }
    else
      match validateCategoryOwnership cid userId db with
      | .error e => .error e
      | .ok _ => .ok { todo with categoryId := some cid }

/-- `TodoService.syncStatusAndCompleted`. -/
def syncStatusAndCompleted (todo : Todo) (input : UpdateInput) : Todo :=
  let todo :=
    match input.completed with
    | none => todo
    | some c =>
      let todo := { todo with completed := c }
      if c then { todo with status := statusCompleted }
      else if todo.status == statusCompleted then { todo with status := statusPending }
      else todo
  match input.status with
  | none => todo
  | some st =>
    let todo := { todo with status := st }
    { todo with completed := todo.status == statusCompleted }

/-- `TodoService.categoryChanged`. -/
def categoryChanged (oldId newId : Option Int) : Bool :=
  match oldId, newId with
  | none, some _ => true
  | some _, none => true
  | some a, some b => a != b
  | none, none => false

/-- `TodoService.updateCategoryCounts`: only when the reference changed —
decrement the old (if any), increment the new (if any), both best-effort. -/
def updateCategoryCounts (cok : CounterOracle) (oldId newId : Option Int) (db : DB) : DB :=
  if categoryChanged oldId newId then
    let db :=
      match oldId with
      | some cid => { db with categories := decTodosCount (cok.decOk cid) cid db.categories }
      | none => db
    match newId with
    | some cid => { db with categories := incTodosCount (cok.incOk cid) cid db.categories }
    | none => db
  else db

/-- The `if input.Priority != nil` step of `TodoService.Update`. -/
def applyPriority (todo : Todo) (p : Option Int) : Todo :=
  match p with
  | some v => { todo with priority := v }
  | none => todo

/-- The `if input.DueDate != nil` step of `TodoService.Update`: parse with
`checkPast = false` and overwrite the stored due date. -/
def applyDueDate (today : GoDate) (todo : Todo) (ds : Option String) : Except SvcError Todo :=
  match ds with
  | none => .ok todo
  | some _ =>
    match parseDueDate ds false today with
    | .error e => .error e
    | .ok dd => .ok { todo with dueDate := dd }

/-- The `if input.Position != nil` step of `TodoService.Update`. -/
def applyPosition (todo : Todo) (p : Option Int) : Todo :=
  match p with
  | some v => { todo with position := some v }
  | none => todo

/-- `TodoService.Create`: validate category ownership, parse/validate the
due date (past dates rejected), build the row (the `Completed` field is
left at its Go zero value `false`), insert (position auto-assigned by the
`BeforeCreate` hook), increment the category counter best-effort, reload. -/
def create (today : GoDate) (cok : CounterOracle) (input : CreateInput) (db : DB) :
    Except SvcError Todo × DB :=
  match (match input.categoryId with
         | none => Except.ok ()
         | some cid => validateCategoryOwnership cid input.userId db) with
  | .error e => (.error e, db)
  | .ok _ =>
    match parseDueDate input.dueDate true today with
    | .error e => (.error e, db)
    | .ok dueDate =>
      let todo : Todo :=
        { id := 0
          userId := input.userId
          title := input.title
          description := input.description
          categoryId := input.categoryId
          completed := false
          dueDate := dueDate
          position := input.position
          priority := resolvePriority input.priority
          status := resolveStatus input.status }
      let res := repoCreate todo db
      let todo1 := res.1
      let db1 := res.2
      let db2 :=
        match todo1.categoryId with
        | some cid => { db1 with categories := incTodosCount (cok.incOk cid) cid db1.categories }
        | none => db1
      match findByID todo1.id input.userId db2 with
      | some t => (.ok t, db2)
      | none => (.error .notFound, db2)

/-- `TodoService.Update`: load owner-scoped (NotFound boundary), apply text
fields, category, status/completed sync, priority, due date (no past
check), position; save; adjust counters when the category changed; reload. -/
def update (today : GoDate) (cok : CounterOracle) (todoID userID : Int)
    (input : UpdateInput) (db : DB) : Except SvcError Todo × DB :=
  match findByID todoID userID db with
  | none => (.error .notFound, db)
  | some todo0 =>
    let oldCategoryId := todo0.categoryId
    match applyCategory (applyTextFields todo0 input) input.categoryId userID db with
    | .error e => (.error e, db)
    | .ok todoC =>
      let todoS := applyPriority (syncStatusAndCompleted todoC input) input.priority
      match applyDueDate today todoS input.dueDate with
      | .error e => (.error e, db)
      | .ok todoD =>
        let todoF := applyPosition todoD input.position
        let db1 := repoUpdate todoF db
        let db2 := updateCategoryCounts cok oldCategoryId todoF.categoryId db1
        match findByID todoID userID db2 with
        | some t => (.ok t, db2)
        | none => (.error .notFound, db2)

/-- `TodoService.Delete`: load owner-scoped (NotFound boundary), capture
the category id, delete the row, decrement the counter best-effort. -/
def delete (cok : CounterOracle) (todoID userID : Int) (db : DB) :
    Except SvcError Unit × DB :=
  match findByID todoID userID db with
  | none => (.error .notFound, db)
  | some todo =>
    let categoryId := todo.categoryId
    match repoDelete todoID userID db with
    | .error _ => (.error .notFound, db)
    | .ok db1 =>
      let db2 :=
        match categoryId with
        | some cid => { db1 with categories := decTodosCount (cok.decOk cid) cid db1.categories }
        | none => db1
      (.ok (), db2)

/-! ## Search/filter engine (`TodoService.Search`, `validateSearchInput`) -/

/-- `service.SearchInput` (`time.Time` bounds carried as dates). -/
structure SearchInput where
  userId : Int
  query : String := ""
  statuses : List Int := []
  priority : Option Int := none
  categoryId : Option Int := none
  categoryIdNull : Bool := false
  tagIds : List Int := []
  tagMode : String := ""
  dueDateFrom : Option GoDate := none
  dueDateTo : Option GoDate := none
  sortBy : String := ""
  sortOrder : String := ""
  page : Int := 0
  perPage : Int := 0
deriving DecidableEq, Repr

/-- `service.SearchResult`. -/
structure SearchResult where
  todos : List Todo
  total : Int
  hasFilters : Bool
deriving DecidableEq, Repr

/-- The `validSortFields` allow-list of `validateSearchInput`. -/
def validSortFields : List String :=
  ["created_at", "updated_at", "due_date", "title", "priority", "status", "position"]

/-- `if input.SortOrder == "" { input.SortOrder = "desc" }`. -/
def defaultSortOrder (input : SearchInput) : SearchInput :=
  if input.sortOrder = "" then { input with sortOrder := "desc" } else input

/-- `if input.TagMode == "" { input.TagMode = "any" }`. -/
def defaultTagMode (input : SearchInput) : SearchInput :=
  if input.tagMode = "" then { input with tagMode := "any" } else input

/-- `if input.Page < 1 { input.Page = 1 }`. -/
def clampPage (input : SearchInput) : SearchInput :=
  if input.page < 1 then { input with page := 1 } else input

/-- `if input.PerPage < 1 { input.PerPage = 20 }`. -/
def clampPerPageLow (input : SearchInput) : SearchInput :=
  if input.perPage < 1 then { input with perPage := 20 } else input

/-- `if input.PerPage > 100 { input.PerPage = 100 }`. -/
def clampPerPageHigh (input : SearchInput) : SearchInput :=
  if input.perPage > 100 then { input with perPage := 100 } else input

/-- `TodoService.validateSearchInput`: enum checks for `sort_by`,
`sort_order`, `tag_mode` (absent values take defaults) and clamping of
`page` / `per_page`; returns the input with defaults applied (the Go code
mutates `input` in place; here each mutation step is a named helper
applied in the same order). -/
def validateSearchInput (input : SearchInput) : Except SvcError SearchInput :=
  if input.sortBy ≠ "" && !validSortFields.contains input.sortBy then
    .error (.validationFailed "sort_by"
      "Invalid sort field. Valid values: created_at, updated_at, due_date, title, priority, status, position")
  else
    if input.sortOrder ≠ "" && input.sortOrder ≠ "asc" && input.sortOrder ≠ "desc" then
      .error (.validationFailed "sort_order" "Invalid sort order. Valid values: asc, desc")
    else
      let input := defaultSortOrder input
      if input.tagMode ≠ "" && input.tagMode ≠ "any" && input.tagMode ≠ "all" then
        .error (.validationFailed "tag_mode" "Invalid tag mode. Valid values: any, all")
      else
        .ok (clampPerPageHigh (clampPerPageLow (clampPage (defaultTagMode input))))

/-- `TodoService.Search`: validate (aborting before any query), delegate to
the repository's search (an external collaborator here — its implementation
is not part of the core sources), compute the any-filter flag. -/
def search (repoSearch : SearchInput → DB → List Todo × Int)
    (input : SearchInput) (db : DB) : Except SvcError SearchResult :=
  match validateSearchInput input with
  | .error e => .error e
  | .ok input =>
    let res := repoSearch input db
    let hasFilters :=
      input.query ≠ "" ||
      input.statuses ≠ [] ||
      input.priority ≠ none ||
      input.categoryId ≠ none ||
      input.categoryIdNull ||
      input.tagIds ≠ [] ||
      input.dueDateFrom ≠ none ||
      input.dueDateTo ≠ none
    .ok { todos := res.1, total := res.2, hasFilters := hasFilters }

/-! ## Helper lemmas -/

/-- Two rows of a duplicate-free table sharing the primary key are equal. -/
lemma eq_of_mem_pairwise_id {l : List Todo} (hP : l.Pairwise (fun a b => a.id ≠ b.id))
    {u v : Todo} (hu : u ∈ l) (hv : v ∈ l) (h : u.id = v.id) : u = v := by
  induction l with
  | nil => cases hu
  | cons a l ih =>
    rcases List.pairwise_cons.mp hP with ⟨ha, hl⟩
    rcases List.mem_cons.mp hu with rfl | hu'
    · rcases List.mem_cons.mp hv with rfl | hv'
      · rfl
      · exact absurd h (ha v hv')
    · rcases List.mem_cons.mp hv with rfl | hv'
      · exact absurd h.symm (ha u hu')
      · exact ih hl hu' hv'

lemma findByID_some {i uid : Int} {db : DB} {t : Todo}
    (h : findByID i uid db = some t) : t ∈ db.todos ∧ t.id = i ∧ t.userId = uid := by
  have hmem := List.mem_of_find?_eq_some h
  have hp := List.find?_some h
  simp only [Bool.and_eq_true, beq_iff_eq] at hp
  exact ⟨hmem, hp.1, hp.2⟩

/-- Replacing a row by primary key, then looking it up under the same
`(id, user)` scope, returns the replacement (needs distinct ids). -/
lemma find?_replace {l : List Todo} (hP : l.Pairwise (fun a b => a.id ≠ b.id))
    {i uid : Int} {t0 t : Todo}
    (h : l.find? (fun u => u.id == i && u.userId == uid) = some t0)
    (hid : t.id = t0.id) (huid : t.userId = t0.userId) :
    (l.map (fun u => if u.id == t.id then t else u)).find?
      (fun u => u.id == i && u.userId == uid) = some t := by
  induction l with
  | nil => simp at h
  | cons a l ih =>
    rcases List.pairwise_cons.mp hP with ⟨ha, hl⟩
    rw [List.find?_cons] at h
    by_cases hpa : (a.id == i && a.userId == uid) = true
    · simp only [hpa] at h
      injection h with h; subst h
      simp only [Bool.and_eq_true, beq_iff_eq] at hpa
      have hat : (a.id == t.id) = true := by
        simp only [beq_iff_eq]; rw [hid, hpa.1]
      simp only [List.map_cons, hat, if_true, List.find?_cons]
      have hpt : (t.id == i && t.userId == uid) = true := by
        simp only [Bool.and_eq_true, beq_iff_eq]
        exact ⟨by rw [hid, hpa.1], by rw [huid, hpa.2]⟩
      simp only [hpt]
    · simp only [Bool.not_eq_true] at hpa
      simp only [hpa] at h
      have ht0mem := List.mem_of_find?_eq_some h
      have hane : a.id ≠ t0.id := ha t0 ht0mem
      have hat : (a.id == t.id) = false := by
        simp only [beq_eq_false_iff_ne, ne_eq, hid]; exact hane
      simp only [List.map_cons, hat, if_false, Bool.false_eq_true, List.find?_cons, hpa]
      exact ih hl h

/-- A lookup skips a prefix none of whose rows match. -/
lemma find?_append_of_forall_neg {l l' : List Todo} {p : Todo → Bool}
    (h : ∀ x ∈ l, p x = false) : (l ++ l').find? p = l'.find? p := by
  induction l with
  | nil => simp
  | cons a l ih =>
    rw [List.cons_append, List.find?_cons]
    simp only [h a (List.mem_cons_self a l)]
    exact ih (fun x hx => h x (List.mem_cons_of_mem a hx))

@[simp] lemma updateCategoryCounts_todos (cok : CounterOracle) (o n : Option Int) (db : DB) :
    (updateCategoryCounts cok o n db).todos = db.todos := by
  unfold updateCategoryCounts
  split
  · cases o <;> cases n <;> rfl
  · rfl

@[simp] lemma updateCategoryCounts_nextTodoId (cok : CounterOracle) (o n : Option Int) (db : DB) :
    (updateCategoryCounts cok o n db).nextTodoId = db.nextTodoId := by
  unfold updateCategoryCounts
  split
  · cases o <;> cases n <;> rfl
  · rfl

@[simp] lemma findByID_updateCategoryCounts (i uid : Int) (cok : CounterOracle)
    (o n : Option Int) (db : DB) :
    findByID i uid (updateCategoryCounts cok o n db) = findByID i uid db := by
  unfold findByID
  rw [updateCategoryCounts_todos]

@[simp] lemma findByID_set_categories (i uid : Int) (db : DB) (cats : List Category) :
    findByID i uid { db with categories := cats } = findByID i uid db := rfl

@[simp] lemma categoryChanged_same (o : Option Int) : categoryChanged o o = false := by
  cases o <;> simp [categoryChanged]

/-- Shapes of the update-pipeline steps: each step only writes its own
fields of the row. -/
lemma applyTextFields_shape (todo : Todo) (input : UpdateInput) :
    ∃ ti de, applyTextFields todo input = { todo with title := ti, description := de } := by
  unfold applyTextFields
  cases input.title <;> cases input.description <;> exact ⟨_, _, rfl⟩

lemma applyCategory_ok_shape {todo : Todo} {categoryId : Option Int} {userId : Int} {db : DB}
    {t' : Todo} (h : applyCategory todo categoryId userId db = .ok t') :
    ∃ c, t' = { todo with categoryId := c } := by
  cases categoryId with
  | none =>
    simp only [applyCategory, Except.ok.injEq] at h
    exact ⟨todo.categoryId, h.symm⟩
  | some cid =>
    simp only [applyCategory] at h
    by_cases h0 : cid = 0
    · rw [if_pos h0] at h; injection h with h; exact ⟨none, h.symm⟩
    · rw [if_neg h0] at h
      cases hv : validateCategoryOwnership cid userId db with
      | error e => rw [hv] at h; cases h
      | ok _ => rw [hv] at h; injection h with h; exact ⟨some cid, h.symm⟩

lemma syncStatusAndCompleted_shape (todo : Todo) (input : UpdateInput) :
    ∃ st cp, syncStatusAndCompleted todo input =
      { todo with status := st, completed := cp } := by
  unfold syncStatusAndCompleted
  cases input.completed with
  | none =>
    cases input.status with
    | none => exact ⟨todo.status, todo.completed, rfl⟩
    | some st => exact ⟨_, _, rfl⟩
  | some c =>
    cases input.status with
    | none =>
      cases c
      · by_cases hs : (todo.status == statusCompleted) = true <;>
          simp only [Bool.false_eq_true, if_false, hs, if_true] <;>
          exact ⟨_, _, rfl⟩
      · exact ⟨_, _, rfl⟩
    | some st =>
      cases c
      · by_cases hs : (todo.status == statusCompleted) = true <;>
          simp only [Bool.false_eq_true, if_false, hs, if_true] <;>
          exact ⟨_, _, rfl⟩
      · exact ⟨_, _, rfl⟩

lemma applyPriority_shape (todo : Todo) (p : Option Int) :
    ∃ pr, applyPriority todo p = { todo with priority := pr } := by
  unfold applyPriority; cases p <;> exact ⟨_, rfl⟩

lemma applyDueDate_ok_shape {today : GoDate} {todo : Todo} {ds : Option String} {t' : Todo}
    (h : applyDueDate today todo ds = .ok t') :
    ∃ dd, t' = { todo with dueDate := dd } := by
  unfold applyDueDate at h
  cases ds with
  | none => injection h with h; exact ⟨todo.dueDate, h.symm⟩
  | some s =>
    cases hp : parseDueDate (some s) false today with
    | error e => rw [hp] at h; cases h
    | ok dd => rw [hp] at h; injection h with h; exact ⟨dd, h.symm⟩

lemma applyPosition_shape (todo : Todo) (p : Option Int) :
    ∃ ps, applyPosition todo p = { todo with position := ps } := by
  unfold applyPosition; cases p <;> exact ⟨_, rfl⟩

/-- A freshly inserted row (id = the sequence value) is what an
owner-scoped lookup for it returns: all older rows have smaller ids. -/
lemma findByID_insert {db dbx : DB} (hWF : db.WF) {t : Todo} {i uid : Int}
    (hid : t.id = i) (huid : t.userId = uid) (hseq : i = db.nextTodoId)
    (htodos : dbx.todos = db.todos ++ [t]) :
    findByID i uid dbx = some t := by
  unfold findByID
  rw [htodos, find?_append_of_forall_neg]
  · rw [List.find?_cons]
    simp [hid, huid]
  · intro x hx
    have hlt := hWF.2 x hx
    have : (x.id == i) = false := by
      simp only [beq_eq_false_iff_ne, ne_eq, hseq]
      omega
    simp [this]

/-- The update pipeline never changes the row's identity or owner. -/
lemma update_pipeline_id_userId {todo0 todoC : Todo} {input : UpdateInput} {userID : Int}
    {db : DB} {today : GoDate} {todoD : Todo}
    (hc : applyCategory (applyTextFields todo0 input) input.categoryId userID db = .ok todoC)
    (hd : applyDueDate today (applyPriority (syncStatusAndCompleted todoC input) input.priority)
            input.dueDate = .ok todoD) :
    (applyPosition todoD input.position).id = todo0.id ∧
    (applyPosition todoD input.position).userId = todo0.userId := by
  obtain ⟨ti, de, hT⟩ := applyTextFields_shape todo0 input
  obtain ⟨c, hC⟩ := applyCategory_ok_shape hc
  obtain ⟨st, cp, hS⟩ := syncStatusAndCompleted_shape todoC input
  obtain ⟨pr, hP⟩ := applyPriority_shape (syncStatusAndCompleted todoC input) input.priority
  obtain ⟨dd, hD⟩ := applyDueDate_ok_shape hd
  obtain ⟨ps, hPos⟩ := applyPosition_shape todoD input.position
  rw [hPos, hD, hP, hS, hC, hT]
  simp

/-- Inversion of a successful `TodoService.Update`: the returned todo is
the saved row — the loaded row run through the documented pipeline — and
the new state is the saved store with the counter adjustment applied. -/
lemma update_ok_spec {today : GoDate} {cok : CounterOracle} {todoID userID : Int}
    {input : UpdateInput} {db : DB} {t : Todo} {db' : DB}
    (hWF : db.WF)
    (h : update today cok todoID userID input db = (.ok t, db')) :
    ∃ todo0 todoC todoD,
      findByID todoID userID db = some todo0 ∧
      applyCategory (applyTextFields todo0 input) input.categoryId userID db = .ok todoC ∧
      applyDueDate today (applyPriority (syncStatusAndCompleted todoC input) input.priority)
        input.dueDate = .ok todoD ∧
      t = applyPosition todoD input.position ∧
      db' = updateCategoryCounts cok todo0.categoryId t.categoryId (repoUpdate t db) := by
  unfold update at h
  cases hf : findByID todoID userID db with
  | none => rw [hf] at h; simp at h
  | some todo0 =>
    rw [hf] at h
    simp only [] at h
    cases hc : applyCategory (applyTextFields todo0 input) input.categoryId userID db with
    | error e => rw [hc] at h; simp at h
    | ok todoC =>
      rw [hc] at h
      simp only [] at h
      cases hd : applyDueDate today
          (applyPriority (syncStatusAndCompleted todoC input) input.priority) input.dueDate with
      | error e => rw [hd] at h; simp at h
      | ok todoD =>
        rw [hd] at h
        simp only [] at h
        have hids := update_pipeline_id_userId hc hd
        have hf0 := findByID_some hf
        have hreload : findByID todoID userID
            (updateCategoryCounts cok todo0.categoryId
              (applyPosition todoD input.position).categoryId
              (repoUpdate (applyPosition todoD input.position) db)) =
            some (applyPosition todoD input.position) := by
          rw [findByID_updateCategoryCounts]
          unfold findByID repoUpdate
          exact find?_replace hWF.1 hf
            (by rw [hids.1, hf0.2.1]) (by rw [hids.2, hf0.2.2])
        rw [hreload] at h
        simp only [Prod.mk.injEq, Except.ok.injEq] at h
        obtain ⟨h1, h2⟩ := h
        subst h1
        exact ⟨todo0, todoC, todoD, rfl, hc, hd, rfl, h2.symm⟩

/-- Inversion of a successful `TodoService.Create`: the returned todo is
the inserted row, with position auto-assigned exactly when absent, the
priority/status defaults resolved, and `completed` at its zero value. -/
lemma create_ok_spec {today : GoDate} {cok : CounterOracle} {input : CreateInput}
    {db : DB} {t : Todo} {db' : DB}
    (hWF : db.WF)
    (h : create today cok input db = (.ok t, db')) :
    ∃ dd,
      parseDueDate input.dueDate true today = .ok dd ∧
      t = { id := db.nextTodoId
            userId := input.userId
            title := input.title
            description := input.description
            categoryId := input.categoryId
            completed := false
            dueDate := dd
            position := (match input.position with
                         | none => some (maxPositionOf input.userId db.todos + 1)
                         | some p => some p)
            priority := resolvePriority input.priority
            status := resolveStatus input.status } ∧
      db'.todos = db.todos ++ [t] ∧ db'.nextTodoId = db.nextTodoId + 1 := by
  unfold create at h
  cases hc : (match input.categoryId with
              | none => Except.ok ()
              | some cid => validateCategoryOwnership cid input.userId db) with
  | error e => rw [hc] at h; simp at h
  | ok u =>
    rw [hc] at h
    cases hd : parseDueDate input.dueDate true today with
    | error e => rw [hd] at h; simp at h
    | ok dd =>
      rw [hd] at h
      simp only [repoCreate, beforeCreate] at h
      cases hpos : input.position with
      | none =>
        rw [hpos] at h
        simp only at h
        set t2 : Todo :=
          { id := db.nextTodoId
            userId := input.userId
            title := input.title
            description := input.description
            categoryId := input.categoryId
            completed := false
            dueDate := dd
            position := some (maxPositionOf input.userId db.todos + 1)
            priority := resolvePriority input.priority
            status := resolveStatus input.status } with ht2
        cases hcat : input.categoryId with
        | none =>
          rw [hcat] at h
          simp only at h
          rw [show findByID db.nextTodoId input.userId
                { db with todos := db.todos ++ [t2], nextTodoId := db.nextTodoId + 1 } =
                some t2 from findByID_insert hWF (by rw [ht2]) (by rw [ht2]) rfl rfl] at h
          simp only [Prod.mk.injEq, Except.ok.injEq] at h
          refine ⟨dd, rfl, ?_, ?_, ?_⟩
          · rw [← h.1, ht2, hcat]
          · rw [← h.2, ← h.1]
          · rw [← h.2]
        | some cid =>
          rw [hcat] at h
          simp only at h
          rw [show findByID db.nextTodoId input.userId
                { todos := db.todos ++ [t2],
                  categories := incTodosCount (cok.incOk cid) cid db.categories,
                  nextTodoId := db.nextTodoId + 1 } =
                some t2 from findByID_insert hWF (by rw [ht2]) (by rw [ht2]) rfl rfl] at h
          simp only [Prod.mk.injEq, Except.ok.injEq] at h
          refine ⟨dd, rfl, ?_, ?_, ?_⟩
          · rw [← h.1, ht2, hcat]
          · rw [← h.2, ← h.1]
          · rw [← h.2]
      | some p =>
        rw [hpos] at h
        simp only at h
        set t2 : Todo :=
          { id := db.nextTodoId
            userId := input.userId
            title := input.title
            description := input.description
            categoryId := input.categoryId
            completed := false
            dueDate := dd
            position := some p
            priority := resolvePriority input.priority
            status := resolveStatus input.status } with ht2
        cases hcat : input.categoryId with
        | none =>
          rw [hcat] at h
          simp only at h
          rw [show findByID db.nextTodoId input.userId
                { db with todos := db.todos ++ [t2], nextTodoId := db.nextTodoId + 1 } =
                some t2 from findByID_insert hWF (by rw [ht2]) (by rw [ht2]) rfl rfl] at h
          simp only [Prod.mk.injEq, Except.ok.injEq] at h
          refine ⟨dd, rfl, ?_, ?_, ?_⟩
          · rw [← h.1, ht2, hcat]
          · rw [← h.2, ← h.1]
          · rw [← h.2]
        | some cid =>
          rw [hcat] at h
          simp only at h
          rw [show findByID db.nextTodoId input.userId
                { todos := db.todos ++ [t2],
                  categories := incTodosCount (cok.incOk cid) cid db.categories,
                  nextTodoId := db.nextTodoId + 1 } =
                some t2 from findByID_insert hWF (by rw [ht2]) (by rw [ht2]) rfl rfl] at h
          simp only [Prod.mk.injEq, Except.ok.injEq] at h
          refine ⟨dd, rfl, ?_, ?_, ?_⟩
          · rw [← h.1, ht2, hcat]
          · rw [← h.2, ← h.1]
          · rw [← h.2]

@[simp] lemma updateCategoryCounts_same (cok : CounterOracle) (o : Option Int) (db : DB) :
    updateCategoryCounts cok o o db = db := by
  unfold updateCategoryCounts
  rw [categoryChanged_same]
  simp

lemma ParseDate_ne_empty {s : String} {d : GoDate} (hparse : ParseDate s = .ok (some d)) :
    s ≠ "" := by
  intro h
  rw [h] at hparse
  simp [ParseDate] at hparse

/-- A parse-valid date lying before today is rejected by the create-side
due-date policy. -/
lemma parseDueDate_past {s : String} {d today : GoDate}
    (hparse : ParseDate s = .ok (some d)) (hpast : d.isBefore today = true) :
    parseDueDate (some s) true today =
      .error (.validationFailed "due_date" "Due date cannot be in the past") := by
  unfold parseDueDate
  simp only []
  rw [if_neg (ParseDate_ne_empty hparse), hparse]
  simp [hpast]

/-- On the update side (`checkPast = false`) a parse-valid date is always
accepted, past or not. -/
lemma parseDueDate_noPast {s : String} {d : GoDate} (today : GoDate)
    (hparse : ParseDate s = .ok (some d)) :
    parseDueDate (some s) false today = .ok (some d) := by
  unfold parseDueDate
  simp only []
  rw [if_neg (ParseDate_ne_empty hparse), hparse]
  simp

/-- Forward evaluation of a successful `TodoService.Update`. -/
lemma update_eval {today : GoDate} (cok : CounterOracle) {todoID userID : Int}
    {input : UpdateInput} {db : DB} {todo0 todoC todoD : Todo}
    (hWF : db.WF)
    (hf : findByID todoID userID db = some todo0)
    (hc : applyCategory (applyTextFields todo0 input) input.categoryId userID db = .ok todoC)
    (hd : applyDueDate today (applyPriority (syncStatusAndCompleted todoC input) input.priority)
            input.dueDate = .ok todoD) :
    update today cok todoID userID input db =
      (.ok (applyPosition todoD input.position),
       updateCategoryCounts cok todo0.categoryId (applyPosition todoD input.position).categoryId
         (repoUpdate (applyPosition todoD input.position) db)) := by
  unfold update
  rw [hf]
  simp only []
  rw [hc]
  simp only []
  rw [hd]
  simp only []
  have hids := update_pipeline_id_userId hc hd
  have hf0 := findByID_some hf
  have hre : findByID todoID userID
      (updateCategoryCounts cok todo0.categoryId
        (applyPosition todoD input.position).categoryId
        (repoUpdate (applyPosition todoD input.position) db)) =
      some (applyPosition todoD input.position) := by
    rw [findByID_updateCategoryCounts]
    unfold findByID repoUpdate
    exact find?_replace hWF.1 hf (by rw [hids.1, hf0.2.1]) (by rw [hids.2, hf0.2.2])
  rw [hre]

/-- Forward evaluation of a successful `TodoService.Create` (result
component). -/
lemma create_eval {today : GoDate} (cok : CounterOracle) {input : CreateInput} {db : DB}
    (hWF : db.WF)
    (hc : (match input.categoryId with
           | none => Except.ok ()
           | some cid => validateCategoryOwnership cid input.userId db) = .ok ())
    {dd : Option GoDate} (hd : parseDueDate input.dueDate true today = .ok dd) :
    (create today cok input db).1 = .ok
      { id := db.nextTodoId
        userId := input.userId
        title := input.title
        description := input.description
        categoryId := input.categoryId
        completed := false
        dueDate := dd
        position := (match input.position with
                     | none => some (maxPositionOf input.userId db.todos + 1)
                     | some p => some p)
        priority := resolvePriority input.priority
        status := resolveStatus input.status } := by
  have hskip : ∀ x ∈ db.todos, (x.id == db.nextTodoId && x.userId == input.userId) = false := by
    intro x hx
    have hlt := hWF.2 x hx
    have hne : (x.id == db.nextTodoId) = false := by
      simp only [beq_eq_false_iff_ne, ne_eq]
      omega
    simp [hne]
  unfold create
  rw [hc]
  simp only []
  rw [hd]
  simp only [repoCreate, beforeCreate]
  cases hpos : input.position with
  | none =>
    simp only []
    cases hcat : input.categoryId with
    | none =>
      simp only []
      unfold findByID
      rw [find?_append_of_forall_neg hskip]
      simp
    | some cid =>
      simp only []
      unfold findByID
      rw [find?_append_of_forall_neg hskip]
      simp
  | some p =>
    simp only []
    cases hcat : input.categoryId with
    | none =>
      simp only []
      unfold findByID
      rw [find?_append_of_forall_neg hskip]
      simp
    | some cid =>
      simp only []
      unfold findByID
      rw [find?_append_of_forall_neg hskip]
      simp

/-! ## Claims -/

/-- **C2.** Ownership isolation: for every todo `T` owned by principal `A`
and every distinct principal `B`, `find_one(T.id, B)` reports not-found,
and `Update(T.id, B, input)` and `Delete(T.id, B)` fail with NotFound
leaving the store — in particular every field of `T` — unchanged: the
outcome is identical to `T` not existing. -/
theorem C2_ownership_isolation (today : GoDate) (cok : CounterOracle) (db : DB) (T : Todo)
    (A B : Int) (input : UpdateInput)
    (hWF : db.WF) (hT : T ∈ db.todos) (hA : T.userId = A) (hB : B ≠ A) :
    findByID T.id B db = none ∧
    update today cok T.id B input db = (.error .notFound, db) ∧
    delete cok T.id B db = (.error .notFound, db) := by
  have hnone : findByID T.id B db = none := by
    unfold findByID
    rw [List.find?_eq_none]
    intro u hu hp
    simp only [Bool.and_eq_true, beq_iff_eq] at hp
    have huT : u = T := eq_of_mem_pairwise_id hWF.1 hu hT hp.1
    rw [huT, hA] at hp
    exact hB hp.2.symm
  refine ⟨hnone, ?_, ?_⟩
  · unfold update; rw [hnone]
  · unfold delete; rw [hnone]

/-- Concrete store for the C2 witness: one todo owned by principal 1. -/
def c2db : DB := { todos := [{ id := 1, userId := 1 }], categories := [], nextTodoId := 2 }

theorem C2_witness :
    findByID 1 2 c2db = none ∧
    update ⟨2026, 1, 1⟩ oracleOk 1 2 {} c2db = (.error .notFound, c2db) ∧
    delete oracleOk 1 2 c2db = (.error .notFound, c2db) :=
  C2_ownership_isolation ⟨2026, 1, 1⟩ oracleOk c2db { id := 1, userId := 1 } 1 2 {}
    (by decide) (by decide) rfl (by decide)

/-- The transactional bulk reposition, row by row: folding the per-update
table maps equals mapping the per-row update fold. -/
lemma updateOrder_foldl (userID : Int) (updates : List OrderUpdate) (ts : List Todo) :
    updates.foldl (fun ts u => applyOrderUpdate userID u ts) ts =
      ts.map (fun t => updates.foldl (fun t u =>
        if t.id == u.id && t.userId == userID then { t with position := some u.position }
        else t) t) := by
  induction updates generalizing ts with
  | nil => simp
  | cons u us ih =>
    rw [List.foldl_cons, ih]
    unfold applyOrderUpdate
    rw [List.map_map]
    simp only [List.foldl_cons, Function.comp_def]

/-- **C9.** `UpdateOrder` applies every `(id, position)` update inside one
transaction and completes successfully: the resulting table is the
row-wise application of the matching updates, so an id that does not exist
under the requesting owner (including another owner's todo id) is silently
skipped — every row it would touch is left as-is — while the remaining
valid updates are still applied. -/
theorem C9_reorder_tolerance (userID : Int) (updates : List OrderUpdate) (db : DB) :
    updateOrder userID updates db =
      .ok { db with todos := db.todos.map (fun t => updates.foldl (fun t u =>
        if t.id == u.id && t.userId == userID then { t with position := some u.position }
        else t) t) } ∧
    ∀ t ∈ db.todos, (∀ u ∈ updates, t.id ≠ u.id ∨ t.userId ≠ userID) →
      t ∈ db.todos.map (fun t => updates.foldl (fun t u =>
        if t.id == u.id && t.userId == userID then { t with position := some u.position }
        else t) t) := by
  constructor
  · unfold updateOrder
    rw [updateOrder_foldl]
  · intro t ht hu
    have hfix : updates.foldl (fun t u =>
        if t.id == u.id && t.userId == userID then { t with position := some u.position }
        else t) t = t := by
      induction updates with
      | nil => rfl
      | cons u us ih =>
        rw [List.foldl_cons]
        have hcond : (t.id == u.id && t.userId == userID) = false := by
          rcases hu u (List.mem_cons_self u us) with h | h
          · simp [beq_eq_false_iff_ne.mpr h]
          · simp [beq_eq_false_iff_ne.mpr h]
        rw [hcond]
        simp only [Bool.false_eq_true, if_false]
        exact ih (fun v hv => hu v (List.mem_cons_of_mem u hv))
    exact List.mem_map.mpr ⟨t, ht, hfix⟩

/-- Concrete store for the C9 witness: two todos of owner 1; the batch
references id 1 (present) and id 99 (absent). -/
def c9db : DB :=
  { todos := [{ id := 1, userId := 1, position := some 1 },
              { id := 2, userId := 1, position := some 2 }],
    categories := [], nextTodoId := 3 }

theorem C9_witness :
    updateOrder 1 [⟨1, 10⟩, ⟨99, 7⟩] c9db =
      .ok { c9db with todos := c9db.todos.map (fun t => [(⟨1, 10⟩ : OrderUpdate), ⟨99, 7⟩].foldl
        (fun t u => if t.id == u.id && t.userId == 1 then { t with position := some u.position }
                    else t) t) } ∧
    ({ id := 2, userId := 1, position := some 2 } : Todo) ∈
      c9db.todos.map (fun t => [(⟨1, 10⟩ : OrderUpdate), ⟨99, 7⟩].foldl
        (fun t u => if t.id == u.id && t.userId == 1 then { t with position := some u.position }
                    else t) t) :=
  ⟨(C9_reorder_tolerance 1 [⟨1, 10⟩, ⟨99, 7⟩] c9db).1,
   (C9_reorder_tolerance 1 [⟨1, 10⟩, ⟨99, 7⟩] c9db).2
     { id := 2, userId := 1, position := some 2 } (by decide) (by decide)⟩

/-- **C3.** The status/completed synchronisation of `Update`: supplying
`completed` sets it and forces status to completed when true, or demotes a
completed status to pending when false (other statuses unchanged);
supplying `status` sets it and derives `completed := (status ==
completed)`; when both are supplied, completed's effect is applied first
and status's effect overwrites it, so status determines the final
completed value. -/
theorem C3_status_completed_sync (todo : Todo) (input : UpdateInput) :
    (∀ c, input.completed = some c → input.status = none →
      (syncStatusAndCompleted todo input).completed = c ∧
      (c = true → (syncStatusAndCompleted todo input).status = statusCompleted) ∧
      (c = false → (syncStatusAndCompleted todo input).status =
        (if todo.status = statusCompleted then statusPending else todo.status))) ∧
    (∀ st, input.status = some st → input.completed = none →
      (syncStatusAndCompleted todo input).status = st ∧
      ((syncStatusAndCompleted todo input).completed = true ↔ st = statusCompleted)) ∧
    (∀ c st, input.completed = some c → input.status = some st →
      syncStatusAndCompleted todo input =
        syncStatusAndCompleted (syncStatusAndCompleted todo { input with status := none })
          { input with completed := none } ∧
      (syncStatusAndCompleted todo input).status = st ∧
      ((syncStatusAndCompleted todo input).completed = true ↔ st = statusCompleted)) := by
  refine ⟨?_, ?_, ?_⟩
  · intro c hC hS
    simp only [syncStatusAndCompleted, hC, hS]
    cases c with
    | true => simp
    | false =>
      by_cases hs : todo.status = statusCompleted
      · simp [hs]
      · simp only [Bool.false_eq_true, if_false,
          show (todo.status == statusCompleted) = false from beq_eq_false_iff_ne.mpr hs]
        simp [hs]
  · intro st hS hC
    simp only [syncStatusAndCompleted, hC, hS]
    simp [beq_iff_eq]
  · intro c st hC hS
    refine ⟨?_, ?_⟩
    · simp only [syncStatusAndCompleted, hC, hS]
    · simp only [syncStatusAndCompleted, hC, hS]
      simp [beq_iff_eq]

theorem C3_witness :
    (syncStatusAndCompleted { id := 1, userId := 1, status := statusInProgress }
        { completed := some false }).completed = false ∧
    (syncStatusAndCompleted { id := 1, userId := 1, status := statusInProgress }
        { completed := some false }).status =
      (if ({ id := 1, userId := 1, status := statusInProgress } : Todo).status = statusCompleted
       then statusPending
       else ({ id := 1, userId := 1, status := statusInProgress } : Todo).status) := by
  have h := (C3_status_completed_sync { id := 1, userId := 1, status := statusInProgress }
      { completed := some false }).1 false rfl rfl
  exact ⟨h.1, h.2.2 rfl⟩

/-- **C6.** The category field of `Update`: absent leaves the reference
untouched; the sentinel 0 clears it to none; a non-zero id is re-validated
for ownership — failing with `ValidationFailed{category_id}` exactly when
no category row with that id belongs to the requesting owner — and then
set. -/
theorem C6_category_update (todo : Todo) (userID : Int) (db : DB) :
    applyCategory todo none userID db = .ok todo ∧
    applyCategory todo (some 0) userID db = .ok { todo with categoryId := none } ∧
    (∀ cid, cid ≠ 0 →
      (repoValidateCategoryOwnership cid userID db = false →
        applyCategory todo (some cid) userID db =
          .error (.validationFailed "category_id" "Category not found or not owned by user")) ∧
      (repoValidateCategoryOwnership cid userID db = true →
        applyCategory todo (some cid) userID db = .ok { todo with categoryId := some cid })) ∧
    (∀ cid, repoValidateCategoryOwnership cid userID db = true ↔
      ∃ c ∈ db.categories, c.id = cid ∧ c.userId = userID) := by
  refine ⟨rfl, rfl, ?_, ?_⟩
  · intro cid h0
    constructor
    · intro hv
      simp [applyCategory, h0, validateCategoryOwnership, hv]
    · intro hv
      simp [applyCategory, h0, validateCategoryOwnership, hv]
  · intro cid
    unfold repoValidateCategoryOwnership
    rw [List.any_eq_true]
    constructor
    · rintro ⟨c, hc, hp⟩
      simp only [Bool.and_eq_true, beq_iff_eq] at hp
      exact ⟨c, hc, hp⟩
    · rintro ⟨c, hc, hp⟩
      exact ⟨c, hc, by simp [hp.1, hp.2]⟩

/-- Concrete store for the C6 witness: category 7 owned by principal 1. -/
def c6db : DB := { todos := [], categories := [{ id := 7, userId := 1 }], nextTodoId := 1 }

theorem C6_witness :
    applyCategory { id := 1, userId := 1 } (some 7) 1 c6db =
      .ok { ({ id := 1, userId := 1 } : Todo) with categoryId := some 7 } ∧
    applyCategory { id := 1, userId := 1 } (some 9) 1 c6db =
      .error (.validationFailed "category_id" "Category not found or not owned by user") :=
  ⟨((C6_category_update { id := 1, userId := 1 } 1 c6db).2.2.1 7 (by decide)).2 (by decide),
   ((C6_category_update { id := 1, userId := 1 } 1 c6db).2.2.1 9 (by decide)).1 (by decide)⟩

/-- **C4.** Due-date past rejection only on create: `Create` with a
due_date strictly before today fails `ValidationFailed{due_date}` with
message "Due date cannot be in the past" and persists nothing (the store
is returned unchanged), while `Update` of an existing todo supplying the
same past due_date succeeds and stores that date. -/
theorem C4_past_due_date (today : GoDate) (cok : CounterOracle) (db : DB)
    (s : String) (d : GoDate)
    (hparse : ParseDate s = .ok (some d)) (hpast : d.isBefore today = true) :
    (∀ input : CreateInput, input.dueDate = some s →
      (∀ cid, input.categoryId = some cid →
        repoValidateCategoryOwnership cid input.userId db = true) →
      create today cok input db =
        (.error (.validationFailed "due_date" "Due date cannot be in the past"), db)) ∧
    (∀ todoID userID : Int, ∀ todo0 : Todo, db.WF →
      findByID todoID userID db = some todo0 →
      update today cok todoID userID { dueDate := some s } db =
        (.ok { todo0 with dueDate := some d },
         repoUpdate { todo0 with dueDate := some d } db)) := by
  constructor
  · intro input hdue hcat
    have hc : (match input.categoryId with
               | none => Except.ok ()
               | some cid => validateCategoryOwnership cid input.userId db) = .ok () := by
      cases hic : input.categoryId with
      | none => rfl
      | some cid =>
        simp only [validateCategoryOwnership, hcat cid hic, if_true]
    unfold create
    rw [hc]
    simp only []
    rw [hdue, parseDueDate_past hparse hpast]
  · intro todoID userID todo0 hWF hf
    have hc : applyCategory (applyTextFields todo0 ({ dueDate := some s } : UpdateInput))
        ({ dueDate := some s } : UpdateInput).categoryId userID db = .ok todo0 := rfl
    have hd : applyDueDate today
        (applyPriority (syncStatusAndCompleted todo0 ({ dueDate := some s } : UpdateInput))
          ({ dueDate := some s } : UpdateInput).priority)
        ({ dueDate := some s } : UpdateInput).dueDate =
        .ok { todo0 with dueDate := some d } := by
      show applyDueDate today todo0 (some s) = .ok { todo0 with dueDate := some d }
      unfold applyDueDate
      simp only []
      rw [parseDueDate_noPast today hparse]
    have hres := update_eval cok hWF hf hc hd
    rw [hres]
    simp only [applyPosition]
    rw [show ({ todo0 with dueDate := some d } : Todo).categoryId = todo0.categoryId from rfl,
        updateCategoryCounts_same]

/-- Concrete store for the C4 witness: one todo of owner 1; today is
2026-10-11 and the past date is 2020-01-01. -/
def c4db : DB := { todos := [{ id := 1, userId := 1 }], categories := [], nextTodoId := 2 }

theorem C4_witness :
    create ⟨2026, 10, 11⟩ oracleOk { userId := 1, title := "x", dueDate := some "2020-01-01" }
        c4db =
      (.error (.validationFailed "due_date" "Due date cannot be in the past"), c4db) ∧
    update ⟨2026, 10, 11⟩ oracleOk 1 1 { dueDate := some "2020-01-01" } c4db =
      (.ok { ({ id := 1, userId := 1 } : Todo) with dueDate := some ⟨2020, 1, 1⟩ },
       repoUpdate { ({ id := 1, userId := 1 } : Todo) with dueDate := some ⟨2020, 1, 1⟩ } c4db) := by
  have h := C4_past_due_date ⟨2026, 10, 11⟩ oracleOk c4db "2020-01-01" ⟨2020, 1, 1⟩
    (by rfl) (by decide)
  exact ⟨h.1 { userId := 1, title := "x", dueDate := some "2020-01-01" } rfl
      (fun cid hc => by cases hc),
    h.2 1 1 { id := 1, userId := 1 } (by decide) (by decide)⟩

/-- Output of `syncStatusAndCompleted` satisfies the status/completed
invariant whenever the input supplies either field. -/
lemma sync_invariant (todo : Todo) (input : UpdateInput)
    (h : input.completed ≠ none ∨ input.status ≠ none) :
    ((syncStatusAndCompleted todo input).status = statusCompleted ↔
     (syncStatusAndCompleted todo input).completed = true) := by
  cases hS : input.status with
  | some st =>
    simp only [syncStatusAndCompleted, hS]
    cases hC : input.completed <;> simp [beq_iff_eq]
  | none =>
    cases hC : input.completed with
    | none =>
      rcases h with h | h
      · exact absurd hC h
      · exact absurd hS h
    | some c =>
      simp only [syncStatusAndCompleted, hS, hC]
      cases c with
      | true => simp
      | false =>
        by_cases hs2 : todo.status = statusCompleted
        · simp [hs2, statusCompleted, statusPending]
        · simp only [Bool.false_eq_true, if_false,
            show (todo.status == statusCompleted) = false from beq_eq_false_iff_ne.mpr hs2]
          simp [hs2]

/-- The todo stored by the C1 counterexample call (`Create` with
`status = completed` supplied). -/
def c1Stored : Todo :=
  { id := 1, userId := 1, title := "t", position := some 1,
    priority := priorityMedium, status := statusCompleted, completed := false }

/-- **C1 (counterexample).** `Create` with status supplied as completed
stores a todo whose completed flag is `false` — the bidirectional
invariant `status == completed ⇔ completed == true` does NOT hold on this
write, contradicting the claim that every status-touching write enforces
it and that such a create yields `completed = true`. -/
theorem C1_counterexample :
    (create ⟨2026, 10, 11⟩ oracleOk
        { userId := 1, title := "t", status := some statusCompleted } {}).1 = .ok c1Stored ∧
    c1Stored.status = statusCompleted ∧
    c1Stored.completed = false ∧
    ¬(c1Stored.status = statusCompleted ↔ c1Stored.completed = true) := by
  refine ⟨by rfl, rfl, rfl, by decide⟩

/-- **C1 (amended).** The invariant is enforced on the Update side only:
every successful `Update` that supplies `completed` and/or `status`
returns a stored todo satisfying `status == completed ⇔ completed ==
true`; `Create`, by contrast, never sets the completed flag — every
created todo is stored with `completed = false` regardless of the supplied
status, so a create supplying status = completed violates the invariant. -/
theorem C1_amended_sync_on_update_only :
    (∀ (today : GoDate) (cok : CounterOracle) (todoID userID : Int) (input : UpdateInput)
        (db : DB) (t : Todo) (db' : DB), db.WF →
      (input.completed ≠ none ∨ input.status ≠ none) →
      update today cok todoID userID input db = (.ok t, db') →
      (t.status = statusCompleted ↔ t.completed = true)) ∧
    (∀ (today : GoDate) (cok : CounterOracle) (input : CreateInput)
        (db : DB) (t : Todo) (db' : DB), db.WF →
      create today cok input db = (.ok t, db') → t.completed = false) := by
  constructor
  · intro today cok todoID userID input db t db' hWF hsupplied h
    obtain ⟨todo0, todoC, todoD, hf, hc, hd, ht, hdb⟩ := update_ok_spec hWF h
    obtain ⟨pr, hP⟩ := applyPriority_shape (syncStatusAndCompleted todoC input) input.priority
    obtain ⟨dd, hD⟩ := applyDueDate_ok_shape hd
    obtain ⟨ps, hPos⟩ := applyPosition_shape todoD input.position
    have hstat : t.status = (syncStatusAndCompleted todoC input).status := by
      rw [ht, hPos, hD, hP]
    have hcomp : t.completed = (syncStatusAndCompleted todoC input).completed := by
      rw [ht, hPos, hD, hP]
    rw [hstat, hcomp]
    exact sync_invariant todoC input hsupplied
  · intro today cok input db t db' hWF h
    obtain ⟨dd, hd, ht, _, _⟩ := create_ok_spec hWF h
    rw [ht]

/-- Concrete store for the C1 amended witness. -/
def c1udb : DB :=
  { todos := [{ id := 1, userId := 1, status := statusInProgress }],
    categories := [], nextTodoId := 2 }

theorem C1_amended_witness :
    (({ id := 1, userId := 1, status := statusCompleted, completed := true } : Todo).status
        = statusCompleted ↔
     ({ id := 1, userId := 1, status := statusCompleted, completed := true } : Todo).completed
        = true) ∧
    ({ id := 1, userId := 1, title := "w", position := some 1 } : Todo).completed = false :=
  ⟨C1_amended_sync_on_update_only.1 ⟨2026, 1, 1⟩ oracleOk 1 1 { completed := some true }
      c1udb { id := 1, userId := 1, status := statusCompleted, completed := true }
      (repoUpdate { id := 1, userId := 1, status := statusCompleted, completed := true } c1udb)
      (by decide) (Or.inl (by decide)) (by rfl),
   C1_amended_sync_on_update_only.2 ⟨2026, 1, 1⟩ oracleOk { userId := 1, title := "w" } {}
      { id := 1, userId := 1, title := "w", position := some 1 }
      { todos := [{ id := 1, userId := 1, title := "w", position := some 1 }],
        categories := [], nextTodoId := 2 }
      (by decide) (by rfl)⟩

/-- **C10.** Supplying `due_date` as the empty string on `Update` never
fails and clears the stored due date to none, while leaving the field
absent keeps the existing due date; `Create` with `due_date` supplied as
the empty string succeeds with no due date, and the past-date check is
never triggered by the empty string. -/
theorem C10_empty_due_date_clears (today : GoDate) (cok : CounterOracle) (db : DB) :
    (∀ (todoID userID : Int) (todo0 : Todo), db.WF →
      findByID todoID userID db = some todo0 →
      update today cok todoID userID { dueDate := some "" } db =
        (.ok { todo0 with dueDate := none }, repoUpdate { todo0 with dueDate := none } db)) ∧
    (∀ (todoID userID : Int) (todo0 : Todo), db.WF →
      findByID todoID userID db = some todo0 →
      update today cok todoID userID {} db = (.ok todo0, repoUpdate todo0 db)) ∧
    (∀ input : CreateInput, db.WF → input.dueDate = some "" →
      (∀ cid, input.categoryId = some cid →
        repoValidateCategoryOwnership cid input.userId db = true) →
      ∃ t, (create today cok input db).1 = .ok t ∧ t.dueDate = none) ∧
    (∀ today' : GoDate, parseDueDate (some "") true today' = .ok none) := by
  refine ⟨?_, ?_, ?_, fun _ => rfl⟩
  · intro todoID userID todo0 hWF hf
    have hc : applyCategory (applyTextFields todo0 ({ dueDate := some "" } : UpdateInput))
        ({ dueDate := some "" } : UpdateInput).categoryId userID db = .ok todo0 := rfl
    have hd : applyDueDate today
        (applyPriority (syncStatusAndCompleted todo0 ({ dueDate := some "" } : UpdateInput))
          ({ dueDate := some "" } : UpdateInput).priority)
        ({ dueDate := some "" } : UpdateInput).dueDate =
        .ok { todo0 with dueDate := none } := rfl
    have hres := update_eval cok hWF hf hc hd
    rw [hres]
    simp only [applyPosition]
    rw [show ({ todo0 with dueDate := none } : Todo).categoryId = todo0.categoryId from rfl,
        updateCategoryCounts_same]
  · intro todoID userID todo0 hWF hf
    have hc : applyCategory (applyTextFields todo0 ({} : UpdateInput))
        ({} : UpdateInput).categoryId userID db = .ok todo0 := rfl
    have hd : applyDueDate today
        (applyPriority (syncStatusAndCompleted todo0 ({} : UpdateInput))
          ({} : UpdateInput).priority)
        ({} : UpdateInput).dueDate = .ok todo0 := rfl
    have hres := update_eval cok hWF hf hc hd
    rw [hres]
    simp only [applyPosition]
    rw [updateCategoryCounts_same]
  · intro input hWF hdue hcat
    have hc : (match input.categoryId with
               | none => Except.ok ()
               | some cid => validateCategoryOwnership cid input.userId db) = .ok () := by
      cases hic : input.categoryId with
      | none => rfl
      | some cid => simp only [validateCategoryOwnership, hcat cid hic, if_true]
    have hd : parseDueDate input.dueDate true today = .ok none := by
      rw [hdue]; rfl
    refine ⟨_, create_eval cok hWF hc hd, rfl⟩

/-- Concrete store for the C10 witness: one todo of owner 1 carrying a due
date. -/
def c10db : DB :=
  { todos := [{ id := 1, userId := 1, dueDate := some ⟨2030, 12, 31⟩ }],
    categories := [], nextTodoId := 2 }

theorem C10_witness :
    update ⟨2026, 10, 11⟩ oracleOk 1 1 { dueDate := some "" } c10db =
      (.ok { ({ id := 1, userId := 1, dueDate := some ⟨2030, 12, 31⟩ } : Todo)
               with dueDate := none },
       repoUpdate { ({ id := 1, userId := 1, dueDate := some ⟨2030, 12, 31⟩ } : Todo)
               with dueDate := none } c10db) ∧
    update ⟨2026, 10, 11⟩ oracleOk 1 1 {} c10db =
      (.ok { id := 1, userId := 1, dueDate := some ⟨2030, 12, 31⟩ },
       repoUpdate { id := 1, userId := 1, dueDate := some ⟨2030, 12, 31⟩ } c10db) :=
  ⟨(C10_empty_due_date_clears ⟨2026, 10, 11⟩ oracleOk c10db).1 1 1
      { id := 1, userId := 1, dueDate := some ⟨2030, 12, 31⟩ } (by decide) (by rfl),
   (C10_empty_due_date_clears ⟨2026, 10, 11⟩ oracleOk c10db).2.1 1 1
      { id := 1, userId := 1, dueDate := some ⟨2030, 12, 31⟩ } (by decide) (by rfl)⟩

/-- Forward evaluation of a successful `TodoService.Create` (full pair). -/
lemma create_eval_pair {today : GoDate} (cok : CounterOracle) {input : CreateInput} {db : DB}
    (hWF : db.WF)
    (hc : (match input.categoryId with
           | none => Except.ok ()
           | some cid => validateCategoryOwnership cid input.userId db) = .ok ())
    {dd : Option GoDate} (hd : parseDueDate input.dueDate true today = .ok dd) :
    create today cok input db =
      (.ok { id := db.nextTodoId
             userId := input.userId
             title := input.title
             description := input.description
             categoryId := input.categoryId
             completed := false
             dueDate := dd
             position := (match input.position with
                          | none => some (maxPositionOf input.userId db.todos + 1)
                          | some p => some p)
             priority := resolvePriority input.priority
             status := resolveStatus input.status },
       { todos := db.todos ++
           [{ id := db.nextTodoId
              userId := input.userId
              title := input.title
              description := input.description
              categoryId := input.categoryId
              completed := false
              dueDate := dd
              position := (match input.position with
                           | none => some (maxPositionOf input.userId db.todos + 1)
                           | some p => some p)
              priority := resolvePriority input.priority
              status := resolveStatus input.status }]
         categories := (match input.categoryId with
                        | none => db.categories
                        | some cid => incTodosCount (cok.incOk cid) cid db.categories)
         nextTodoId := db.nextTodoId + 1 }) := by
  have hskip : ∀ x ∈ db.todos, (x.id == db.nextTodoId && x.userId == input.userId) = false := by
    intro x hx
    have hlt := hWF.2 x hx
    have hne : (x.id == db.nextTodoId) = false := by
      simp only [beq_eq_false_iff_ne, ne_eq]
      omega
    simp [hne]
  unfold create
  rw [hc]
  simp only []
  rw [hd]
  simp only [repoCreate, beforeCreate]
  cases hpos : input.position with
  | none =>
    simp only []
    cases hcat : input.categoryId with
    | none =>
      simp only []
      unfold findByID
      rw [find?_append_of_forall_neg hskip]
      simp
    | some cid =>
      simp only []
      unfold findByID
      rw [find?_append_of_forall_neg hskip]
      simp
  | some p =>
    simp only []
    cases hcat : input.categoryId with
    | none =>
      simp only []
      unfold findByID
      rw [find?_append_of_forall_neg hskip]
      simp
    | some cid =>
      simp only []
      unfold findByID
      rw [find?_append_of_forall_neg hskip]
      simp

/-- Appending an owned row whose position dominates the owner's maximum
makes that position the new maximum. -/
lemma maxPositionOf_append_owned {uid : Int} {todos : List Todo} {t : Todo} {m : Int}
    (huid : (t.userId == uid) = true) (hp : t.position = some m)
    (hge : maxPositionOf uid todos ≤ m) :
    maxPositionOf uid (todos ++ [t]) = m := by
  unfold maxPositionOf at hge ⊢
  rw [List.filter_append, List.filterMap_append]
  simp only [List.filter_cons, huid, if_true, List.filter_nil, List.filterMap_cons, hp,
    List.filterMap_nil]
  cases hl : (todos.filter (fun t => t.userId == uid)).filterMap (fun t => t.position) with
  | nil => simp
  | cons p ps =>
    rw [hl] at hge
    simp only [] at hge
    simp only [List.cons_append, List.nil_append]
    rw [List.foldl_append]
    simp only [List.foldl_cons, List.foldl_nil]
    omega

/-- N successive creates with no explicit position for one owner, from the
empty store (`TodoService.Create` with only owner and title supplied). -/
def createN (today : GoDate) (uid : Int) : Nat → DB
  | 0 => {}
  | n + 1 => (create today oracleOk { userId := uid, title := "todo" } (createN today uid n)).2

/-- The row stored by the `i`-th create of `createN` (0-based). -/
def expectedTodo (uid : Int) (i : Nat) : Todo :=
  { id := (i : Int) + 1, userId := uid, title := "todo",
    position := some ((i : Int) + 1), priority := priorityMedium, status := statusPending }

lemma expectedDB_WF (uid : Int) (n : Nat) (db : DB)
    (htodos : db.todos = (List.range n).map (expectedTodo uid))
    (hnext : db.nextTodoId = (n : Int) + 1) : db.WF := by
  constructor
  · rw [htodos, List.pairwise_map]
    have := List.pairwise_lt_range n
    refine this.imp ?_
    intro i j hij
    simp only [expectedTodo, ne_eq]
    omega
  · intro t ht
    rw [htodos] at ht
    rw [hnext]
    obtain ⟨i, hi, rfl⟩ := List.mem_map.mp ht
    rw [List.mem_range] at hi
    simp only [expectedTodo]
    omega

lemma createN_spec (today : GoDate) (uid : Int) :
    ∀ n, (createN today uid n).todos = (List.range n).map (expectedTodo uid) ∧
         (createN today uid n).nextTodoId = (n : Int) + 1 ∧
         maxPositionOf uid (createN today uid n).todos = (n : Int) := by
  intro n
  induction n with
  | zero => exact ⟨rfl, rfl, rfl⟩
  | succ n ih =>
    obtain ⟨ht, hn, hm⟩ := ih
    have hWF : (createN today uid n).WF := expectedDB_WF uid n _ ht hn
    have hres := @create_eval_pair today oracleOk { userId := uid, title := "todo" }
      (createN today uid n) hWF rfl none rfl
    simp only [] at hres
    have hstep : createN today uid (n + 1) =
        (create today oracleOk { userId := uid, title := "todo" } (createN today uid n)).2 := rfl
    rw [hstep, hres]
    simp only []
    have hcast : ((n + 1 : Nat) : Int) = (n : Int) + 1 := by push_cast; ring
    refine ⟨?_, ?_, ?_⟩
    · rw [hm, hn, ht, List.range_succ, List.map_append]
      simp [expectedTodo, resolvePriority, resolveStatus]
    · rw [hn, hcast]
    · rw [hm, hcast]
      exact maxPositionOf_append_owned (by simp) rfl (by rw [hm]; omega)

/-- **C5.** Auto-position: every todo created without an explicit position
is stored with position `1 + max(position)` over the owner's existing
todos (the `COALESCE(MAX(position), 0)` aggregate, which is 0 — hence
position 1 — when the owner has no todos); consequently creating N todos
for one owner with no explicit position, starting from no todos, yields
strictly increasing positions 1..N in creation order. -/
theorem C5_auto_position (today : GoDate) :
    (∀ (cok : CounterOracle) (input : CreateInput) (db : DB) (t : Todo) (db' : DB),
      db.WF → input.position = none →
      create today cok input db = (.ok t, db') →
      t.position = some (maxPositionOf input.userId db.todos + 1)) ∧
    (∀ uid : Int, maxPositionOf uid ([] : List Todo) = 0) ∧
    (∀ (uid : Int) (n : Nat),
      ((createN today uid n).todos).map (fun t => t.position) =
        (List.range n).map (fun i : Nat => some ((i : Int) + 1))) := by
  refine ⟨?_, fun _ => rfl, ?_⟩
  · intro cok input db t db' hWF hpos h
    obtain ⟨dd, hd, ht, _, _⟩ := create_ok_spec hWF h
    rw [ht]
    simp only [hpos]
  · intro uid n
    rw [(createN_spec today uid n).1, List.map_map]
    refine List.map_congr_left ?_
    intro i _
    simp [expectedTodo]

/-- Concrete store for the C5 witness: owner 1 already has a todo at
position 3, so the next auto-assigned position is 4. -/
def c5db : DB :=
  { todos := [{ id := 1, userId := 1, position := some 3 }], categories := [], nextTodoId := 2 }

theorem C5_witness :
    ({ id := 2, userId := 1, title := "y", position := some 4 } : Todo).position =
      some (maxPositionOf 1 c5db.todos + 1) :=
  (C5_auto_position ⟨2026, 1, 1⟩).1 oracleOk { userId := 1, title := "y" } c5db
    { id := 2, userId := 1, title := "y", position := some 4 }
    { todos := [{ id := 1, userId := 1, position := some 3 },
                { id := 2, userId := 1, title := "y", position := some 4 }],
      categories := [], nextTodoId := 3 }
    (by decide) rfl (by rfl)

/-- The reload step only reads todo rows: stores agreeing on todos give
the same reload result. -/
lemma reload_pair_fst {dbA dbB : DB} {i u : Int} (h : dbA.todos = dbB.todos) :
    (match findByID i u dbA with
     | some t => ((Except.ok t : Except SvcError Todo), dbA)
     | none => ((Except.error SvcError.notFound : Except SvcError Todo), dbA)).1 =
    (match findByID i u dbB with
     | some t => ((Except.ok t : Except SvcError Todo), dbB)
     | none => ((Except.error SvcError.notFound : Except SvcError Todo), dbB)).1 := by
  have hf : findByID i u dbA = findByID i u dbB := by unfold findByID; rw [h]
  rw [hf]
  cases findByID i u dbB <;> rfl

lemma create_result_oracle (today : GoDate) (cok cok' : CounterOracle)
    (input : CreateInput) (db : DB) :
    (create today cok input db).1 = (create today cok' input db).1 := by
  unfold create
  cases hc : (match input.categoryId with
              | none => Except.ok ()
              | some cid => validateCategoryOwnership cid input.userId db) with
  | error e => rfl
  | ok u =>
    simp only []
    cases hd : parseDueDate input.dueDate true today with
    | error e => rfl
    | ok dd =>
      simp only [repoCreate, beforeCreate]
      cases hpos : input.position with
      | none =>
        simp only []
        cases hcat : input.categoryId with
        | none => rfl
        | some cid =>
          simp only []
          exact reload_pair_fst rfl
      | some p =>
        simp only []
        cases hcat : input.categoryId with
        | none => rfl
        | some cid =>
          simp only []
          exact reload_pair_fst rfl

lemma update_result_oracle (today : GoDate) (cok cok' : CounterOracle)
    (todoID userID : Int) (input : UpdateInput) (db : DB) :
    (update today cok todoID userID input db).1 =
      (update today cok' todoID userID input db).1 := by
  unfold update
  cases hf : findByID todoID userID db with
  | none => rfl
  | some todo0 =>
    simp only []
    cases hc : applyCategory (applyTextFields todo0 input) input.categoryId userID db with
    | error e => rfl
    | ok todoC =>
      simp only []
      cases hd : applyDueDate today
          (applyPriority (syncStatusAndCompleted todoC input) input.priority) input.dueDate with
      | error e => rfl
      | ok todoD =>
        simp only []
        exact reload_pair_fst (by rw [updateCategoryCounts_todos, updateCategoryCounts_todos])

lemma delete_result_oracle (cok cok' : CounterOracle) (todoID userID : Int) (db : DB) :
    (delete cok todoID userID db).1 = (delete cok' todoID userID db).1 := by
  unfold delete
  cases hf : findByID todoID userID db with
  | none => rfl
  | some todo0 =>
    simp only []
    cases hdel : repoDelete todoID userID db with
    | error e => rfl
    | ok db1 => rfl

lemma incTodosCount_true (cid : Int) (cats : List Category) :
    incTodosCount true cid cats =
      cats.map (fun c => if c.id == cid then { c with todosCount := c.todosCount + 1 }
                         else c) := by
  simp [incTodosCount]

lemma decTodosCount_true (cid : Int) (cats : List Category) :
    decTodosCount true cid cats =
      cats.map (fun c => if c.id == cid then { c with todosCount := c.todosCount - 1 }
                         else c) := by
  simp [decTodosCount]

lemma find?_inc_eq (cid : Int) (cats : List Category) :
    (incTodosCount true cid cats).find? (fun c => c.id == cid) =
      (cats.find? (fun c => c.id == cid)).map
        (fun c => { c with todosCount := c.todosCount + 1 }) := by
  rw [incTodosCount_true]
  induction cats with
  | nil => rfl
  | cons c cs ih =>
    rw [List.map_cons, List.find?_cons, List.find?_cons]
    cases hb : (c.id == cid) with
    | true => simp [hb]
    | false =>
      simp only [hb, Bool.false_eq_true, if_false]
      exact ih

lemma find?_dec_eq (cid : Int) (cats : List Category) :
    (decTodosCount true cid cats).find? (fun c => c.id == cid) =
      (cats.find? (fun c => c.id == cid)).map
        (fun c => { c with todosCount := c.todosCount - 1 }) := by
  rw [decTodosCount_true]
  induction cats with
  | nil => rfl
  | cons c cs ih =>
    rw [List.map_cons, List.find?_cons, List.find?_cons]
    cases hb : (c.id == cid) with
    | true => simp [hb]
    | false =>
      simp only [hb, Bool.false_eq_true, if_false]
      exact ih

lemma find?_inc_ne {cid a : Int} (h : a ≠ cid) (cats : List Category) :
    (incTodosCount true cid cats).find? (fun c => c.id == a) =
      cats.find? (fun c => c.id == a) := by
  rw [incTodosCount_true]
  induction cats with
  | nil => rfl
  | cons c cs ih =>
    rw [List.map_cons, List.find?_cons, List.find?_cons]
    cases hb : (c.id == cid) with
    | true =>
      have hc : c.id = cid := by simpa using hb
      have ha : (c.id == a) = false := beq_eq_false_iff_ne.mpr (by rw [hc]; exact h.symm)
      simp only [hb, if_true, ha, Bool.false_eq_true]
      exact ih
    | false =>
      cases ha : (c.id == a) with
      | true => simp [hb, ha]
      | false =>
        simp only [hb, Bool.false_eq_true, if_false, ha]
        exact ih

lemma find?_dec_ne {cid a : Int} (h : a ≠ cid) (cats : List Category) :
    (decTodosCount true cid cats).find? (fun c => c.id == a) =
      cats.find? (fun c => c.id == a) := by
  rw [decTodosCount_true]
  induction cats with
  | nil => rfl
  | cons c cs ih =>
    rw [List.map_cons, List.find?_cons, List.find?_cons]
    cases hb : (c.id == cid) with
    | true =>
      have hc : c.id = cid := by simpa using hb
      have ha : (c.id == a) = false := beq_eq_false_iff_ne.mpr (by rw [hc]; exact h.symm)
      simp only [hb, if_true, ha, Bool.false_eq_true]
      exact ih
    | false =>
      cases ha : (c.id == a) with
      | true => simp [hb, ha]
      | false =>
        simp only [hb, Bool.false_eq_true, if_false, ha]
        exact ih

@[simp] lemma oracleOk_incOk (c : Int) : oracleOk.incOk c = true := rfl

@[simp] lemma oracleOk_decOk (c : Int) : oracleOk.decOk c = true := rfl

/-- **C7.** Category counter maintenance is best-effort and
change-triggered: the caller-visible result of `Create`, `Update` and
`Delete` is independent of whether the counter increments/decrements
succeed at the store (their failure never fails the enclosing mutation);
on `Update` the counters are adjusted only when the old and new category
references differ — decrement the old if present, increment the new if
present — and a successful `Delete` of a todo that had a category
decrements that category's counter. -/
theorem C7_best_effort_counters :
    (∀ (today : GoDate) (cok cok' : CounterOracle) (input : CreateInput) (db : DB),
      (create today cok input db).1 = (create today cok' input db).1) ∧
    (∀ (today : GoDate) (cok cok' : CounterOracle) (todoID userID : Int)
        (input : UpdateInput) (db : DB),
      (update today cok todoID userID input db).1 =
        (update today cok' todoID userID input db).1) ∧
    (∀ (cok cok' : CounterOracle) (todoID userID : Int) (db : DB),
      (delete cok todoID userID db).1 = (delete cok' todoID userID db).1) ∧
    (∀ (cok : CounterOracle) (o n : Option Int) (db : DB), categoryChanged o n = false →
      updateCategoryCounts cok o n db = db) ∧
    (∀ (a b : Int) (db : DB), a ≠ b →
      todosCountOf a (updateCategoryCounts oracleOk (some a) (some b) db) =
        (todosCountOf a db).map (fun k => k - 1) ∧
      todosCountOf b (updateCategoryCounts oracleOk (some a) (some b) db) =
        (todosCountOf b db).map (fun k => k + 1)) ∧
    (∀ (b : Int) (db : DB),
      todosCountOf b (updateCategoryCounts oracleOk none (some b) db) =
        (todosCountOf b db).map (fun k => k + 1)) ∧
    (∀ (a : Int) (db : DB),
      todosCountOf a (updateCategoryCounts oracleOk (some a) none db) =
        (todosCountOf a db).map (fun k => k - 1)) ∧
    (∀ (todoID userID cid : Int) (db : DB) (todo0 : Todo) (db' : DB),
      findByID todoID userID db = some todo0 → todo0.categoryId = some cid →
      delete oracleOk todoID userID db = (.ok (), db') →
      todosCountOf cid db' = (todosCountOf cid db).map (fun k => k - 1)) := by
  refine ⟨create_result_oracle, update_result_oracle, delete_result_oracle, ?_, ?_, ?_, ?_, ?_⟩
  · intro cok o n db h
    unfold updateCategoryCounts
    rw [h]
    simp
  · intro a b db hab
    have hch : categoryChanged (some a) (some b) = true := by
      simp [categoryChanged, hab]
    unfold updateCategoryCounts
    rw [hch]
    simp only [if_true]
    constructor
    · unfold todosCountOf
      simp only [oracleOk_incOk, oracleOk_decOk]
      rw [find?_inc_ne hab, find?_dec_eq]
      cases db.categories.find? (fun c => c.id == a) <;> simp
    · unfold todosCountOf
      simp only [oracleOk_incOk, oracleOk_decOk]
      rw [find?_inc_eq, find?_dec_ne (Ne.symm hab)]
      cases db.categories.find? (fun c => c.id == b) <;> simp
  · intro b db
    unfold updateCategoryCounts todosCountOf
    simp only [categoryChanged, if_true, oracleOk_incOk]
    rw [find?_inc_eq]
    cases db.categories.find? (fun c => c.id == b) <;> simp
  · intro a db
    unfold updateCategoryCounts todosCountOf
    simp only [categoryChanged, if_true, oracleOk_decOk]
    rw [find?_dec_eq]
    cases db.categories.find? (fun c => c.id == a) <;> simp
  · intro todoID userID cid db todo0 db' hf hcat hdel
    have hf0 := findByID_some hf
    have hany : db.todos.any (fun t => t.id == todoID && t.userId == userID) = true :=
      List.any_eq_true.mpr ⟨todo0, hf0.1, by simp [hf0.2.1, hf0.2.2]⟩
    unfold delete at hdel
    rw [hf] at hdel
    simp only [] at hdel
    unfold repoDelete at hdel
    rw [if_pos hany] at hdel
    simp only [] at hdel
    rw [hcat] at hdel
    simp only [Prod.mk.injEq, true_and] at hdel
    rw [← hdel]
    unfold todosCountOf
    simp only [oracleOk_decOk]
    rw [find?_dec_eq]
    cases db.categories.find? (fun c => c.id == cid) <;> simp

/-- Concrete store for the C7 witness: todo 1 of owner 1 sits in category
5 (count 3); category 6 exists with count 0. -/
def c7db : DB :=
  { todos := [{ id := 1, userId := 1, categoryId := some 5 }],
    categories := [{ id := 5, userId := 1, todosCount := 3 },
                   { id := 6, userId := 1, todosCount := 0 }],
    nextTodoId := 2 }

theorem C7_witness :
    (todosCountOf 5 (updateCategoryCounts oracleOk (some 5) (some 6) c7db) =
      (todosCountOf 5 c7db).map (fun k => k - 1) ∧
     todosCountOf 6 (updateCategoryCounts oracleOk (some 5) (some 6) c7db) =
      (todosCountOf 6 c7db).map (fun k => k + 1)) ∧
    todosCountOf 5
        { todos := [], categories := [{ id := 5, userId := 1, todosCount := 2 },
                                      { id := 6, userId := 1, todosCount := 0 }],
          nextTodoId := 2 } =
      (todosCountOf 5 c7db).map (fun k => k - 1) :=
  ⟨C7_best_effort_counters.2.2.2.2.1 5 6 c7db (by decide),
   C7_best_effort_counters.2.2.2.2.2.2.2 1 1 5 c7db { id := 1, userId := 1, categoryId := some 5 }
     { todos := [], categories := [{ id := 5, userId := 1, todosCount := 2 },
                                   { id := 6, userId := 1, todosCount := 0 }],
       nextTodoId := 2 }
     (by rfl) rfl (by rfl)⟩

@[simp] lemma defaultSortOrder_sortBy (i : SearchInput) :
    (defaultSortOrder i).sortBy = i.sortBy := by
  unfold defaultSortOrder; split_ifs <;> rfl

@[simp] lemma defaultSortOrder_sortOrder (i : SearchInput) :
    (defaultSortOrder i).sortOrder = if i.sortOrder = "" then "desc" else i.sortOrder := by
  unfold defaultSortOrder; split_ifs <;> rfl

@[simp] lemma defaultSortOrder_tagMode (i : SearchInput) :
    (defaultSortOrder i).tagMode = i.tagMode := by
  unfold defaultSortOrder; split_ifs <;> rfl

@[simp] lemma defaultSortOrder_page (i : SearchInput) :
    (defaultSortOrder i).page = i.page := by
  unfold defaultSortOrder; split_ifs <;> rfl

@[simp] lemma defaultSortOrder_perPage (i : SearchInput) :
    (defaultSortOrder i).perPage = i.perPage := by
  unfold defaultSortOrder; split_ifs <;> rfl

@[simp] lemma defaultTagMode_sortBy (i : SearchInput) :
    (defaultTagMode i).sortBy = i.sortBy := by
  unfold defaultTagMode; split_ifs <;> rfl

@[simp] lemma defaultTagMode_sortOrder (i : SearchInput) :
    (defaultTagMode i).sortOrder = i.sortOrder := by
  unfold defaultTagMode; split_ifs <;> rfl

@[simp] lemma defaultTagMode_tagMode (i : SearchInput) :
    (defaultTagMode i).tagMode = if i.tagMode = "" then "any" else i.tagMode := by
  unfold defaultTagMode; split_ifs <;> rfl

@[simp] lemma defaultTagMode_page (i : SearchInput) :
    (defaultTagMode i).page = i.page := by
  unfold defaultTagMode; split_ifs <;> rfl

@[simp] lemma defaultTagMode_perPage (i : SearchInput) :
    (defaultTagMode i).perPage = i.perPage := by
  unfold defaultTagMode; split_ifs <;> rfl

@[simp] lemma clampPage_sortBy (i : SearchInput) : (clampPage i).sortBy = i.sortBy := by
  unfold clampPage; split_ifs <;> rfl

@[simp] lemma clampPage_sortOrder (i : SearchInput) :
    (clampPage i).sortOrder = i.sortOrder := by
  unfold clampPage; split_ifs <;> rfl

@[simp] lemma clampPage_tagMode (i : SearchInput) : (clampPage i).tagMode = i.tagMode := by
  unfold clampPage; split_ifs <;> rfl

@[simp] lemma clampPage_page (i : SearchInput) :
    (clampPage i).page = if i.page < 1 then 1 else i.page := by
  unfold clampPage; split_ifs <;> rfl

@[simp] lemma clampPage_perPage (i : SearchInput) : (clampPage i).perPage = i.perPage := by
  unfold clampPage; split_ifs <;> rfl

@[simp] lemma clampPerPageLow_sortBy (i : SearchInput) :
    (clampPerPageLow i).sortBy = i.sortBy := by
  unfold clampPerPageLow; split_ifs <;> rfl

@[simp] lemma clampPerPageLow_sortOrder (i : SearchInput) :
    (clampPerPageLow i).sortOrder = i.sortOrder := by
  unfold clampPerPageLow; split_ifs <;> rfl

@[simp] lemma clampPerPageLow_tagMode (i : SearchInput) :
    (clampPerPageLow i).tagMode = i.tagMode := by
  unfold clampPerPageLow; split_ifs <;> rfl

@[simp] lemma clampPerPageLow_page (i : SearchInput) :
    (clampPerPageLow i).page = i.page := by
  unfold clampPerPageLow; split_ifs <;> rfl

@[simp] lemma clampPerPageLow_perPage (i : SearchInput) :
    (clampPerPageLow i).perPage = if i.perPage < 1 then 20 else i.perPage := by
  unfold clampPerPageLow; split_ifs <;> rfl

@[simp] lemma clampPerPageHigh_sortBy (i : SearchInput) :
    (clampPerPageHigh i).sortBy = i.sortBy := by
  unfold clampPerPageHigh; split_ifs <;> rfl

@[simp] lemma clampPerPageHigh_sortOrder (i : SearchInput) :
    (clampPerPageHigh i).sortOrder = i.sortOrder := by
  unfold clampPerPageHigh; split_ifs <;> rfl

@[simp] lemma clampPerPageHigh_tagMode (i : SearchInput) :
    (clampPerPageHigh i).tagMode = i.tagMode := by
  unfold clampPerPageHigh; split_ifs <;> rfl

@[simp] lemma clampPerPageHigh_page (i : SearchInput) :
    (clampPerPageHigh i).page = i.page := by
  unfold clampPerPageHigh; split_ifs <;> rfl

@[simp] lemma clampPerPageHigh_perPage (i : SearchInput) :
    (clampPerPageHigh i).perPage = if i.perPage > 100 then 100 else i.perPage := by
  unfold clampPerPageHigh; split_ifs <;> rfl

/-- **C8.** Search input validation, performed before any query executes:
`sort_by` absent is allowed and never yields the sort_by error; any value
outside the allow-list fails `ValidationFailed{sort_by}`; `sort_order`
other than asc/desc fails `ValidationFailed{sort_order}` and absent
defaults to desc; `tag_mode` other than any/all fails
`ValidationFailed{tag_mode}` and absent defaults to any; `page < 1`
becomes 1; `per_page < 1` becomes 20 and `per_page > 100` becomes 100; on
any validation failure `Search` returns that error for every repository
collaborator and store — no data is read or modified. -/
theorem C8_search_validation (input : SearchInput) :
    (input.sortBy = "" →
      ∀ msg, validateSearchInput input ≠ .error (.validationFailed "sort_by" msg)) ∧
    (input.sortBy ≠ "" → input.sortBy ∉ validSortFields →
      validateSearchInput input = .error (.validationFailed "sort_by"
        "Invalid sort field. Valid values: created_at, updated_at, due_date, title, priority, status, position")) ∧
    ((input.sortBy = "" ∨ input.sortBy ∈ validSortFields) →
      input.sortOrder ≠ "" → input.sortOrder ≠ "asc" → input.sortOrder ≠ "desc" →
      validateSearchInput input = .error (.validationFailed "sort_order"
        "Invalid sort order. Valid values: asc, desc")) ∧
    ((input.sortBy = "" ∨ input.sortBy ∈ validSortFields) →
      (input.sortOrder = "" ∨ input.sortOrder = "asc" ∨ input.sortOrder = "desc") →
      input.tagMode ≠ "" → input.tagMode ≠ "any" → input.tagMode ≠ "all" →
      validateSearchInput input = .error (.validationFailed "tag_mode"
        "Invalid tag mode. Valid values: any, all")) ∧
    (∀ out, validateSearchInput input = .ok out →
      (input.sortOrder = "" → out.sortOrder = "desc") ∧
      (input.tagMode = "" → out.tagMode = "any") ∧
      (input.page < 1 → out.page = 1) ∧
      (1 ≤ input.page → out.page = input.page) ∧
      (input.perPage < 1 → out.perPage = 20) ∧
      (input.perPage > 100 → out.perPage = 100) ∧
      (1 ≤ input.perPage → input.perPage ≤ 100 → out.perPage = input.perPage) ∧
      out.sortBy = input.sortBy) ∧
    (∀ e, validateSearchInput input = .error e →
      ∀ (repoSearch repoSearch' : SearchInput → DB → List Todo × Int) (db db' : DB),
        search repoSearch input db = .error e ∧
        search repoSearch input db = search repoSearch' input db') := by
  refine ⟨?_, ?_, ?_, ?_, ?_, ?_⟩
  · intro h msg hcontra
    unfold validateSearchInput at hcontra
    simp only [] at hcontra
    split at hcontra
    · rename_i hc1
      rw [h] at hc1
      simp at hc1
    · split at hcontra
      · injection hcontra with hx
        injection hx with hf hm
        exact absurd hf (by decide)
      · split at hcontra
        · injection hcontra with hx
          injection hx with hf hm
          exact absurd hf (by decide)
        · exact Except.noConfusion hcontra
  · intro h1 h2
    unfold validateSearchInput
    have hc : (decide (input.sortBy ≠ "") && !validSortFields.contains input.sortBy) = true := by
      simp [h1]
      exact h2
    rw [if_pos hc]
  · intro hby hso1 hso2 hso3
    unfold validateSearchInput
    have hc1 : (decide (input.sortBy ≠ "") && !validSortFields.contains input.sortBy) = false := by
      rcases hby with h | h
      · simp [h]
      · simp
        intro hne
        exact h
    rw [hc1]
    simp only [Bool.false_eq_true, if_false]
    have hc2 : (decide (input.sortOrder ≠ "") && decide (input.sortOrder ≠ "asc") &&
        decide (input.sortOrder ≠ "desc")) = true := by
      simp [hso1, hso2, hso3]
    rw [if_pos hc2]
  · intro hby hso htm1 htm2 htm3
    unfold validateSearchInput
    have hc1 : (decide (input.sortBy ≠ "") && !validSortFields.contains input.sortBy) = false := by
      rcases hby with h | h
      · simp [h]
      · simp
        intro hne
        exact h
    rw [hc1]
    simp only [Bool.false_eq_true, if_false]
    have hc2 : (decide (input.sortOrder ≠ "") && decide (input.sortOrder ≠ "asc") &&
        decide (input.sortOrder ≠ "desc")) = false := by
      rcases hso with h | h | h <;> simp [h]
    rw [hc2]
    simp only [Bool.false_eq_true, if_false]
    have hc3 : (decide ¬(defaultSortOrder input).tagMode = "" &&
        decide ¬(defaultSortOrder input).tagMode = "any" &&
        decide ¬(defaultSortOrder input).tagMode = "all") = true := by
      simp [htm1, htm2, htm3]
    rw [if_pos hc3]
  · intro out h
    unfold validateSearchInput at h
    simp only [] at h
    split at h
    · exact Except.noConfusion h
    · split at h
      · exact Except.noConfusion h
      · split at h
        · exact Except.noConfusion h
        · injection h with h
          subst h
          refine ⟨?_, ?_, ?_, ?_, ?_, ?_, ?_, ?_⟩ <;>
            intros <;>
            simp only [clampPerPageHigh_sortBy, clampPerPageHigh_sortOrder,
              clampPerPageHigh_tagMode, clampPerPageHigh_page, clampPerPageHigh_perPage,
              clampPerPageLow_sortBy, clampPerPageLow_sortOrder, clampPerPageLow_tagMode,
              clampPerPageLow_page, clampPerPageLow_perPage, clampPage_sortBy,
              clampPage_sortOrder, clampPage_tagMode, clampPage_page, clampPage_perPage,
              defaultTagMode_sortBy, defaultTagMode_sortOrder, defaultTagMode_tagMode,
              defaultTagMode_page, defaultTagMode_perPage, defaultSortOrder_sortBy,
              defaultSortOrder_sortOrder, defaultSortOrder_tagMode, defaultSortOrder_page,
              defaultSortOrder_perPage] <;>
            first
            | rfl
            | (split_ifs <;> first | rfl | omega)
  · intro e h repoSearch repoSearch' db db'
    unfold search
    rw [h]
    exact ⟨rfl, rfl⟩

/-- C8 witness inputs: a bogus sort field, and out-of-range paging values
that the validator defaults and clamps. -/
def c8input : SearchInput := { userId := 1, sortBy := "bogus" }

def c8input2 : SearchInput := { userId := 1, page := -2, perPage := 1000 }

def c8out : SearchInput :=
  { userId := 1, tagMode := "any", sortOrder := "desc", page := 1, perPage := 100 }

theorem C8_witness :
    validateSearchInput c8input = .error (.validationFailed "sort_by"
      "Invalid sort field. Valid values: created_at, updated_at, due_date, title, priority, status, position") ∧
    (∀ (repoSearch repoSearch' : SearchInput → DB → List Todo × Int) (db db' : DB),
      search repoSearch c8input db = .error (.validationFailed "sort_by"
        "Invalid sort field. Valid values: created_at, updated_at, due_date, title, priority, status, position") ∧
      search repoSearch c8input db = search repoSearch' c8input db') ∧
    c8out.page = 1 ∧ c8out.perPage = 100 ∧ c8out.sortOrder = "desc" ∧ c8out.tagMode = "any" := by
  have h2 := (C8_search_validation c8input).2.1 (by decide) (by decide)
  have h5 := (C8_search_validation c8input2).2.2.2.2.1 c8out (by rfl)
  exact ⟨h2, (C8_search_validation c8input).2.2.2.2.2 _ h2,
    h5.2.2.1 (by decide), h5.2.2.2.2.2.1 (by decide),
    h5.1 rfl, h5.2.1 rfl⟩

end TodoApp
